import Mathlib

/-!
Verification of the job-description analysis and matching engine of the
Job_hunting_tool repository (src/modules/job_analyzer.py).

Python strings are modelled as `List Char` (ASCII semantics for the
character classes used by the analyzer), Python floats as `ℚ` with exact
arithmetic, and the `ValueError` raised by `analyze_job_description` as
`Except.error`.  Every definition is translated from the source; spec-side
formulations used in refinement claims carry a doc comment saying so.
-/

/-- ASCII model of Python's `str.lower` on a single character. -/
def pyLowerChar (c : Char) : Char :=
  if 65 ≤ c.toNat && c.toNat ≤ 90 then Char.ofNat (c.toNat + 32) else c

/-- ASCII model of the Python regex class `\s` (and of `str.isspace`). -/
def pyIsSpace (c : Char) : Bool :=
  c = ' ' || c = '\t' || c = '\n' || c = '\x0d' || c = '\x0b' || c = '\x0c'

/-- ASCII model of the Python regex class `\w`: letters, digits, underscore. -/
def isWordChar (c : Char) : Bool :=
  (65 ≤ c.toNat && c.toNat ≤ 90) || (97 ≤ c.toNat && c.toNat ≤ 122) ||
    (48 ≤ c.toNat && c.toNat ≤ 57) || c.toNat = 95

/-- Characters kept by `preprocess_text`'s substitution
`re.sub(r'[^\w\s\-\+\#\.]', ' ', text)`. -/
def isRetainedChar (c : Char) : Bool :=
  isWordChar c || pyIsSpace c || c = '-' || c = '+' || c = '#' || c = '.'

/-- ASCII decimal digit test, model of the regex class `\d`. -/
def isDigitChar (c : Char) : Bool :=
  48 ≤ c.toNat && c.toNat ≤ 57

/-- Python `str.strip()`: drop whitespace from both ends. -/
def pyStrip (s : List Char) : List Char :=
  (((s.dropWhile pyIsSpace).reverse).dropWhile pyIsSpace).reverse

/-- Model of `re.sub(r'\s+', ' ', text)`: replace each maximal run of
whitespace by a single space. -/
def collapseWS : List Char → List Char
  | [] => []
  | [c] => if pyIsSpace c then [' '] else [c]
  | c :: d :: cs =>
    if pyIsSpace c && pyIsSpace d then collapseWS (d :: cs)
    else (if pyIsSpace c then ' ' else c) :: collapseWS (d :: cs)

/-- Model of `re.sub(r'[^\w\s\-\+\#\.]', ' ', text)`. -/
def removeSpecials (s : List Char) : List Char :=
  s.map (fun c => if isRetainedChar c then c else ' ')

/-- JobAnalyzer.preprocess_text: lowercase, collapse whitespace, replace
special characters by spaces, strip. -/
def preprocess_text (s : List Char) : List Char :=
  pyStrip (removeSpecials (collapseWS (s.map pyLowerChar)))

/-- Python substring test `p in s`. -/
def isSubOf (p : List Char) : List Char → Bool
  | [] => p.isEmpty
  | c :: cs => p.isPrefixOf (c :: cs) || isSubOf p cs

/-- Case-insensitive prefix match: returns the rest of `s` after the
pattern literal `p` (which is given in lowercase) when it matches. -/
def stripPrefixCI : List Char → List Char → Option (List Char)
  | [], s => some s
  | _ :: _, [] => none
  | p :: ps, c :: cs => if pyLowerChar c = p then stripPrefixCI ps cs else none

/-- Case-sensitive prefix match returning the rest of the input. -/
def stripPrefixCS : List Char → List Char → Option (List Char)
  | [], s => some s
  | _ :: _, [] => none
  | p :: ps, c :: cs => if c = p then stripPrefixCS ps cs else none

/-- Python `str.count` for a non-empty pattern: non-overlapping
occurrences, scanning left to right.  The fuel argument, always at least
the length of the text, makes the recursion structural; every step
consumes at least one character, so the fuel never runs out before the
text does. -/
def pyCountGo (p : List Char) : Nat → List Char → Nat
  | 0, _ => 0
  | _, [] => 0
  | fuel + 1, c :: cs =>
    if p.isPrefixOf (c :: cs) then 1 + pyCountGo p fuel (cs.drop (p.length - 1))
    else pyCountGo p fuel cs

/-- Python `str.count`.  For the empty pattern Python returns
`len(s) + 1`; the analyzer only ever counts non-empty skill names. -/
def pyCount (p s : List Char) : Nat :=
  if p.isEmpty then s.length + 1 else pyCountGo p s.length s

/-- Join a list of strings with single spaces, Python `' '.join`. -/
def joinSpace (l : List (List Char)) : List Char :=
  List.intercalate [' '] l

/-- JobAnalyzer.stop_words, exactly as the Python set literal (the
repeated entries of the source literal are kept; membership is the same). -/
def stop_words : List (List Char) :=
  ["i", "me", "my", "myself", "we", "our", "ours", "ourselves", "you", "your", "yours",
   "yourself", "yourselves", "he", "him", "his", "himself", "she", "her", "hers",
   "herself", "it", "its", "itself", "they", "them", "their", "theirs", "themselves",
   "what", "which", "who", "whom", "this", "that", "these", "those", "am", "is", "are",
   "was", "were", "be", "been", "being", "have", "has", "had", "having", "do", "does",
   "did", "doing", "a", "an", "the", "and", "but", "if", "or", "because", "as", "until",
   "while", "of", "at", "by", "for", "with", "through", "during", "before", "after",
   "above", "below", "up", "down", "in", "out", "on", "off", "over", "under", "again",
   "further", "then", "once", "will", "can", "could", "should", "would", "may", "might",
   "must", "shall", "to", "from", "about", "into", "through", "during", "before", "after",
   "above", "below", "up", "down", "out", "off", "over", "under", "again", "further",
   "then", "once", "here", "there", "when", "where", "why", "how", "all", "any", "both",
   "each", "few", "more", "most", "other", "some", "such", "no", "nor", "not", "only",
   "own", "same", "so", "than", "too", "very"].map String.data

/-- JobAnalyzer.technical_skills: category name paired with its skill list,
in the source's insertion order. -/
def technical_skills : List (List Char × List (List Char)) :=
  [(("programming").data,
    ["python", "java", "javascript", "c++", "c#", "php", "ruby", "go", "rust", "swift"].map String.data),
   (("web").data,
    ["html", "css", "react", "angular", "vue", "node.js", "express", "django", "flask"].map String.data),
   (("database").data,
    ["sql", "mysql", "postgresql", "mongodb", "redis", "elasticsearch"].map String.data),
   (("cloud").data,
    ["aws", "azure", "gcp", "docker", "kubernetes", "terraform"].map String.data),
   (("data").data,
    ["pandas", "numpy", "scikit-learn", "tensorflow", "pytorch", "tableau", "powerbi"].map String.data),
   (("tools").data,
    ["git", "jenkins", "jira", "confluence", "slack", "figma", "photoshop"].map String.data)]

/-- JobAnalyzer.soft_skills. -/
def soft_skills : List (List Char) :=
  ["leadership", "teamwork", "communication", "problem solving", "analytical",
   "creative", "innovative", "collaborative", "adaptable", "organized",
   "detail-oriented", "self-motivated", "proactive", "strategic", "mentoring"].map String.data

/-- JobAnalyzer.experience_levels: level name paired with its indicator
phrases, in the source's insertion order. -/
def experience_levels : List (List Char × List (List Char)) :=
  [(("entry").data, ["entry", "junior", "associate", "graduate", "trainee", "0-2 years"].map String.data),
   (("mid").data, ["mid", "intermediate", "experienced", "3-5 years", "2-4 years"].map String.data),
   (("senior").data, ["senior", "lead", "principal", "staff", "5+ years", "6+ years"].map String.data),
   (("executive").data, ["director", "manager", "head", "chief", "vp", "vice president"].map String.data)]

/-- The `found_skills` dictionary returned by `extract_skills`. -/
structure SkillsBundle where
  technical : List (List Char)
  soft : List (List Char)
  all_categories : List (List Char × List (List Char))
deriving DecidableEq

/-- One entry of `analysis['priority_skills']`. -/
structure PrioritySkill where
  skill : List Char
  frequency : Nat
  in_requirements : Bool
deriving DecidableEq

/-- The analysis dictionary returned by `analyze_job_description`. -/
structure JobAnalysis where
  skills : SkillsBundle
  requirements : List (List Char)
  responsibilities : List (List Char)
  experience_level : List Char
  keywords : List (List Char × Nat)
  priority_skills : List PrioritySkill
  matching_score : ℚ
deriving DecidableEq

/-- Body of `extract_skills` applied to the already-preprocessed text. -/
def skillsCore (p : List Char) : SkillsBundle :=
  { technical := technical_skills.flatMap (fun cat => cat.2.filter (fun sk => isSubOf sk p))
    soft := soft_skills.filter (fun sk => isSubOf sk p)
    all_categories := technical_skills.filterMap (fun cat =>
      let found := cat.2.filter (fun sk => isSubOf sk p)
      if found.isEmpty then none else some (cat.1, found)) }

/-- JobAnalyzer.extract_skills. -/
def extract_skills (job_text : List Char) : SkillsBundle :=
  skillsCore (preprocess_text job_text)

/-- Ordered residues of `s` after the greedy star `\s*`: the longest
whitespace consumption is tried first, as a backtracking regex does. -/
def wsChoices : List Char → List (List Char)
  | [] => [[]]
  | c :: cs => if pyIsSpace c then wsChoices cs ++ [c :: cs] else [c :: cs]

/-- Ordered residues after `\s+` (at least one whitespace), longest first. -/
def wsChoicesPos : List Char → List (List Char)
  | [] => []
  | c :: cs => if pyIsSpace c then wsChoices cs else []

/-- Ordered residues after the optional class `[:\-]?`, consuming first. -/
def colonChoices : List Char → List (List Char)
  | [] => [[]]
  | c :: cs => if c = ':' || c = '-' then [cs, c :: cs] else [c :: cs]

/-- First success of `f` over an ordered candidate list (the order of a
backtracking search). -/
def firstSome {α β : Type} : List α → (α → Option β) → Option β
  | [], _ => none
  | a :: rest, f => match f a with
    | some b => some b
    | none => firstSome rest f

/-- Holds when the word sequence `v1\s+v2\s+…` matches a prefix of `s`,
case-insensitively.  Each literal starts with a non-whitespace character,
so only the maximal whitespace run between words can succeed. -/
def matchSeqCI : List (List Char) → List Char → Bool
  | [], _ => true
  | [v] , s => (stripPrefixCI v s).isSome
  | v :: v2 :: vs, s => match stripPrefixCI v s with
    | none => false
    | some r => match r with
      | [] => false
      | c :: _ => pyIsSpace c && matchSeqCI (v2 :: vs) (r.dropWhile pyIsSpace)

/-- Model of the lookahead `(?=\n\s*\n|\nW1|\nW2|$)` of the section
regexes.  Python's `$` without MULTILINE also matches just before one
trailing newline. -/
def lookaheadHolds (la : List (List (List Char))) : List Char → Bool
  | [] => true
  | ['\n'] => true
  | c :: cs =>
    c = '\n' &&
      (((cs.takeWhile pyIsSpace).contains '\n') || la.any (fun seq => matchSeqCI seq cs))

/-- Lazy capture `(.+?)` under DOTALL: at least one character has been
taken (held reversed in `taken`), and the capture stops at the first
position where the lookahead holds; the end of the text always satisfies
the `$` alternative. -/
def capAux (la : List (List (List Char))) (taken : List Char) : List Char → List Char
  | [] => taken.reverse
  | c :: cs => if lookaheadHolds la (c :: cs) then taken.reverse else capAux la (c :: taken) cs

/-- Attempt `KEYWORD\s*[:\-]?\s*(.+?)(?=LOOKAHEAD|$)` at the current
position; `kwm` yields the ordered residues of the keyword part.  The
nesting order is the backtracking order of the Python engine (rightmost
component varies fastest). -/
def tryMatchAt (kwm : List Char → List (List Char)) (la : List (List (List Char)))
    (s : List Char) : Option (List Char) :=
  firstSome (kwm s) (fun r1 =>
    firstSome (wsChoices r1) (fun r2 =>
      firstSome (colonChoices r2) (fun r3 =>
        firstSome (wsChoices r3) (fun r4 =>
          match r4 with
          | [] => none
          | c :: cs => some (capAux la [c] cs)))))

/-- Python `re.search` over a section pattern: leftmost start position
wins. -/
def searchSection (kwm : List Char → List (List Char)) (la : List (List (List Char))) :
    List Char → Option (List Char)
  | [] => tryMatchAt kwm la []
  | c :: cs => match tryMatchAt kwm la (c :: cs) with
    | some cap => some cap
    | none => searchSection kwm la cs

/-- Keyword matcher for literal alternatives in greedy order, used for
`requirements?`, `qualifications?`, `responsibilities`, `duties`. -/
def kwVariants (vs : List (List Char)) (s : List Char) : List (List Char) :=
  vs.filterMap (fun v => stripPrefixCI v s)

/-- Keyword matcher for a two-word phrase `A\s+B` (`must\s+have`,
`you\s+will`). -/
def kwPhrase (a b : List Char) (s : List Char) : List (List Char) :=
  match stripPrefixCI a s with
  | none => []
  | some r => (wsChoicesPos r).filterMap (fun r2 => stripPrefixCI b r2)

/-- Python `re.split` on a single-character class: empty pieces are kept. -/
def splitOnPred (p : Char → Bool) : List Char → List (List Char)
  | [] => [[]]
  | c :: cs =>
    if p c then [] :: splitOnPred p cs
    else match splitOnPred p cs with
      | [] => [[c]]
      | h :: t => (c :: h) :: t

/-- The splitting class `[•\-\*\n]` of the section-item loop. -/
def isBulletChar (c : Char) : Bool :=
  c = '•' || c = '-' || c = '*' || c = '\n'

/-- Item loop of `extract_requirements` / `extract_responsibilities`:
split the captured block, strip each item, keep it when it is non-empty
and its length exceeds 10 (`if item and len(item) > 10`). -/
def processBlock (b : List Char) : List (List Char) :=
  ((splitOnPred isBulletChar b).map pyStrip).filter
    (fun i => !i.isEmpty && decide (10 < i.length))

/-- One iteration of the pattern loop: a successful search contributes
its processed items, a failed one contributes nothing. -/
def runPattern (kwm : List Char → List (List Char)) (la : List (List (List Char)))
    (t : List Char) : List (List Char) :=
  match searchSection kwm la t with
  | some cap => processBlock cap
  | none => []

/-- JobAnalyzer.extract_requirements: the three requirement patterns in
source order, results concatenated. -/
def extract_requirements (job_text : List Char) : List (List Char) :=
  runPattern (kwVariants [("requirements").data, ("requirement").data])
      [[("responsibilities").data], [("qualifications").data]] job_text ++
    runPattern (kwVariants [("qualifications").data, ("qualification").data])
      [[("responsibilities").data], [("requirements").data]] job_text ++
    runPattern (kwPhrase ("must").data ("have").data)
      [[("nice").data, ("to").data, ("have").data], [("preferred").data]] job_text

/-- JobAnalyzer.extract_responsibilities: the three responsibility
patterns in source order, results concatenated. -/
def extract_responsibilities (job_text : List Char) : List (List Char) :=
  runPattern (kwVariants [("responsibilities").data])
      [[("requirements").data], [("qualifications").data]] job_text ++
    runPattern (kwVariants [("duties").data])
      [[("requirements").data], [("qualifications").data]] job_text ++
    runPattern (kwPhrase ("you").data ("will").data)
      [[("requirements").data], [("qualifications").data]] job_text

/-- Nested loop of `extract_experience_level` over the indicator table:
first level one of whose indicators occurs in the text wins. -/
def findLevelLoop (p : List Char) : List (List Char × List (List Char)) → Option (List Char)
  | [] => none
  | lv :: rest => if lv.2.any (fun ind => isSubOf ind p) then some lv.1 else findLevelLoop p rest

/-- Python `int` on a digit string. -/
def digitsToNat (ds : List Char) : Nat :=
  ds.foldl (fun a c => 10 * a + (c.toNat - 48)) 0

/-- Attempt of `(\d+)[\+\-\s]*years?\s+(?:of\s+)?experience` at the
current position (the pattern is compiled without IGNORECASE and runs on
the lowercased preprocessed text).  Greedy pieces are deterministic here:
giving back characters of `\d+`, `[\+\-\s]*` or `\s+` would leave a
character of that same class where a letter of the following literal is
required, and when `of\s+` matches, the following text starts with an
`o` and can never be `experience`. -/
def tryYearsAt (s : List Char) : Option Nat :=
  let ds := s.takeWhile isDigitChar
  if ds.isEmpty then none
  else
    let r1 := (s.drop ds.length).dropWhile (fun c => c = '+' || c = '-' || pyIsSpace c)
    match stripPrefixCS ("year").data r1 with
    | none => none
    | some r2 =>
      let r3 := match r2 with
        | c :: t => if c = 's' then t else c :: t
        | [] => []
      match r3 with
      | [] => none
      | c :: _ =>
        if pyIsSpace c then
          let r4 := r3.dropWhile pyIsSpace
          let r5 := match stripPrefixCS ("of").data r4 with
            | some ro => match ro with
              | c2 :: _ => if pyIsSpace c2 then ro.dropWhile pyIsSpace else r4
              | [] => r4
            | none => r4
          if ("experience").data.isPrefixOf r5 then some (digitsToNat ds) else none
        else none

/-- Python `re.search` for the years pattern: leftmost position wins. -/
def searchYears : List Char → Option Nat
  | [] => none
  | c :: cs => match tryYearsAt (c :: cs) with
    | some n => some n
    | none => searchYears cs

/-- Body of `extract_experience_level` on the preprocessed text. -/
def expCore (p : List Char) : List Char :=
  match findLevelLoop p experience_levels with
  | some lvl => lvl
  | none => match searchYears p with
    | some years =>
      if years ≤ 2 then ("entry").data
      else if years ≤ 5 then ("mid").data
      else ("senior").data
    | none => ("unknown").data

/-- JobAnalyzer.extract_experience_level. -/
def extract_experience_level (job_text : List Char) : List Char :=
  expCore (preprocess_text job_text)

/-- Accumulating scanner behind `simple_tokenize`. -/
def tokenizeGo (acc : List Char) : List Char → List (List Char)
  | [] => if acc.isEmpty then [] else [acc.reverse]
  | c :: cs =>
    if isWordChar c then tokenizeGo (c :: acc) cs
    else if acc.isEmpty then tokenizeGo [] cs
    else acc.reverse :: tokenizeGo [] cs

/-- JobAnalyzer.simple_tokenize: `re.findall(r'\b\w+\b', text.lower())`,
the maximal runs of word characters of the lowercased text. -/
def simple_tokenize (text : List Char) : List (List Char) :=
  tokenizeGo [] (text.map pyLowerChar)

/-- Insertion step of the frequency table (`collections.Counter`): an
existing key is incremented in place, a new key is appended. -/
def bump (w0 : List Char) : List (List Char × Nat) → List (List Char × Nat)
  | [] => [(w0, 1)]
  | e :: t => if e.1 = w0 then (e.1, e.2 + 1) :: t else e :: bump w0 t

/-- Frequency table of a word list in first-encounter order. -/
def countsList (ws : List (List Char)) : List (List Char × Nat) :=
  ws.foldl (fun acc w0 => bump w0 acc) []

/-- Stable insertion for a descending order: `x` goes in front of the
first element it is greater-or-equal to, so earlier elements stay in
front of later equal-key elements. -/
def insertDescBy {α : Type} (ge : α → α → Bool) (x : α) : List α → List α
  | [] => [x]
  | y :: ys => if ge x y then x :: y :: ys else y :: insertDescBy ge x ys

/-- Stable descending sort, the ordering of Python's stable
`sorted(..., reverse=True)` and of `Counter.most_common`. -/
def pySortDescBy {α : Type} (ge : α → α → Bool) (l : List α) : List α :=
  l.foldr (insertDescBy ge) []

/-- Comparison by count for `most_common`. -/
def countGe (x y : List Char × Nat) : Bool := y.2 ≤ x.2

/-- Body of `extract_keywords` on the preprocessed text. -/
def keywordsCore (p : List Char) (top_n : Nat) : List (List Char × Nat) :=
  let words := simple_tokenize p
  let filtered := words.filter (fun w0 => !stop_words.contains w0 && decide (2 < w0.length))
  (pySortDescBy countGe (countsList filtered)).take top_n

/-- JobAnalyzer.extract_keywords (the source's default top_n is 20). -/
def extract_keywords (job_text : List Char) (top_n : Nat) : List (List Char × Nat) :=
  keywordsCore (preprocess_text job_text) top_n

/-- Sort key comparison of the priority-skill sort: Python tuple order on
`(in_requirements, frequency)`, descending. -/
def priKeyGe (a b : PrioritySkill) : Bool :=
  (b.in_requirements.toNat < a.in_requirements.toNat) ||
    (a.in_requirements = b.in_requirements && b.frequency ≤ a.frequency)

/-- The ValueError message of `analyze_job_description`. -/
def valueErrorMsg : List Char := ("Job description cannot be empty").data

/-- JobAnalyzer.analyze_job_description; `raise ValueError(...)` is
modelled as `Except.error`. -/
def analyze_job_description (job_text : List Char) : Except (List Char) JobAnalysis :=
  if job_text.isEmpty || (pyStrip job_text).isEmpty then Except.error valueErrorMsg
  else
    let skills := extract_skills job_text
    let requirements := extract_requirements job_text
    let responsibilities := extract_responsibilities job_text
    let experience_level := extract_experience_level job_text
    let keywords := extract_keywords job_text 20
    let all_skills := skills.technical ++ skills.soft
    let req_text := (joinSpace requirements).map pyLowerChar
    let priority_skills := all_skills.filterMap (fun sk =>
      let skill_count := pyCount (sk.map pyLowerChar) (job_text.map pyLowerChar)
      let inReq := isSubOf (sk.map pyLowerChar) req_text
      if 1 < skill_count || inReq then some ⟨sk, skill_count, inReq⟩ else none)
    Except.ok
      { skills := skills
        requirements := requirements
        responsibilities := responsibilities
        experience_level := experience_level
        keywords := keywords
        priority_skills := pySortDescBy priKeyGe priority_skills
        matching_score := 0 }

/-- Round-half-to-even on an exact rational, the idealization of Python's
`round` on a float value. -/
def roundHalfEven (q : ℚ) : ℤ :=
  if q - ⌊q⌋ < 1/2 then ⌊q⌋
  else if (1:ℚ)/2 < q - ⌊q⌋ then ⌊q⌋ + 1
  else if ⌊q⌋ % 2 = 0 then ⌊q⌋ else ⌊q⌋ + 1

/-- Python `round(x, 1)` under exact rational arithmetic. -/
def pyRound1 (q : ℚ) : ℚ :=
  ((roundHalfEven (q * 10) : ℤ) : ℚ) / 10

/-- JobAnalyzer.calculate_match_score. -/
def calculate_match_score (profile_skills : List (List Char)) (job_analysis : JobAnalysis) : ℚ :=
  if profile_skills.isEmpty then 0
  else
    let profile_skills_lower := profile_skills.map (fun sk => pyStrip (sk.map pyLowerChar))
    let job_skills := job_analysis.skills.technical ++ job_analysis.skills.soft
    let job_skills_lower := job_skills.map (fun sk => sk.map pyLowerChar)
    if job_skills_lower.isEmpty then 0
    else
      let matching_skills := (profile_skills_lower.filter
        (fun sk => job_skills_lower.contains sk)).dedup
      let priority_weight := job_analysis.priority_skills.foldl (fun acc ps =>
        if profile_skills_lower.contains (ps.skill.map pyLowerChar) then
          acc + (if ps.in_requirements then 2 else 1)
        else acc) (0 : Nat)
      let base_score : ℚ := (matching_skills.length : ℚ) / (job_skills_lower.length : ℚ)
      let adjusted_score := min 1 (base_score + (priority_weight : ℚ) * (1/10))
      pyRound1 (adjusted_score * 100)

/-- State-threading form of `calculate_match_score`: alongside the
result it returns the post-call values of the two Python arguments.  The
source builds fresh lists for every derived value (`profile_skills_lower`
is a new list, `set(...)` copies, `job_analysis` is only read via
indexing and `.get`) and assigns into neither argument, so each comes
back as it went in. -/
def calculate_match_score_st (profile_skills : List (List Char)) (job_analysis : JobAnalysis) :
    ℚ × List (List Char) × JobAnalysis :=
  if profile_skills.isEmpty then (0, profile_skills, job_analysis)
  else
    let profile_skills_lower := profile_skills.map (fun sk => pyStrip (sk.map pyLowerChar))
    let job_skills := job_analysis.skills.technical ++ job_analysis.skills.soft
    let job_skills_lower := job_skills.map (fun sk => sk.map pyLowerChar)
    if job_skills_lower.isEmpty then (0, profile_skills, job_analysis)
    else
      let matching_skills := (profile_skills_lower.filter
        (fun sk => job_skills_lower.contains sk)).dedup
      let priority_weight := job_analysis.priority_skills.foldl (fun acc ps =>
        if profile_skills_lower.contains (ps.skill.map pyLowerChar) then
          acc + (if ps.in_requirements then 2 else 1)
        else acc) (0 : Nat)
      let base_score : ℚ := (matching_skills.length : ℚ) / (job_skills_lower.length : ℚ)
      let adjusted_score := min 1 (base_score + (priority_weight : ℚ) * (1/10))
      (pyRound1 (adjusted_score * 100), profile_skills, job_analysis)

/-- A constant degenerate analysis used as a concrete instance in
several witnesses. -/
def emptyJA : JobAnalysis :=
  { skills := { technical := [], soft := [], all_categories := [] }
    requirements := [], responsibilities := []
    experience_level := ("unknown").data
    keywords := [], priority_skills := [], matching_score := 0 }

/-- Combined job-skill list of an analysis, lowercased (technical then
soft): the scorer's `job_skills_lower`. -/
def jobSkillsLower (a : JobAnalysis) : List (List Char) :=
  (a.skills.technical ++ a.skills.soft).map (fun sk => sk.map pyLowerChar)

/-- Lowercased-and-trimmed candidate skill list: the scorer's
`profile_skills_lower`. -/
def candLower (profile_skills : List (List Char)) : List (List Char) :=
  profile_skills.map (fun sk => pyStrip (sk.map pyLowerChar))

/-- Priority weight as worded in claim C1: sum, over the entries of
`priority_skills` whose lowercased skill is among the candidate skills,
of 2 when `in_requirements` holds and 1 otherwise. -/
def c1PriorityWeight (cand : List (List Char)) (a : JobAnalysis) : Nat :=
  ((a.priority_skills.filter (fun p => cand.contains (p.skill.map pyLowerChar))).map
    (fun p => if p.in_requirements then 2 else 1)).sum

/-- Formulated from the words of claim C1: the base ratio divides the
intersection size by the cardinality of the job skill SET. -/
def c1ClaimScore (profile_skills : List (List Char)) (a : JobAnalysis) : ℚ :=
  let candSet := (candLower profile_skills).dedup
  let jobSet := (jobSkillsLower a).dedup
  let base : ℚ :=
    ((candSet.filter (fun sk => jobSet.contains sk)).length : ℚ) / (jobSet.length : ℚ)
  pyRound1 (min 1 (base + (c1PriorityWeight candSet a : ℚ) * (1/10)) * 100)

/-- Amended formula of claim C1: identical except that the base divides
by the length of the combined lowercased job-skill list, duplicates
counted (the code's `len(job_skills_lower)`). -/
def c1AmendedScore (profile_skills : List (List Char)) (a : JobAnalysis) : ℚ :=
  let candSet := (candLower profile_skills).dedup
  let jobSet := (jobSkillsLower a).dedup
  let base : ℚ :=
    ((candSet.filter (fun sk => jobSet.contains sk)).length : ℚ) / ((jobSkillsLower a).length : ℚ)
  pyRound1 (min 1 (base + (c1PriorityWeight candSet a : ℚ) * (1/10)) * 100)

/-- Analysis holding the skill "python" twice, on which the claim's
set-cardinality denominator disagrees with the code's list length. -/
def dupJA : JobAnalysis :=
  { skills := { technical := [("python").data, ("python").data], soft := [], all_categories := [] }
    requirements := [], responsibilities := []
    experience_level := ("unknown").data
    keywords := [], priority_skills := [], matching_score := 0 }

/-- Spec-side formulation for claim C4: the first level of the table, in
declaration order, one of whose indicator phrases occurs in the text. -/
def firstIndicatorLevel (p : List Char) : Option (List Char) :=
  (experience_levels.find? (fun lv => lv.2.any (fun ind => isSubOf ind p))).map (fun lv => lv.1)

/-- The three requirement patterns of `extract_requirements`, as pairs
of keyword matcher and lookahead word sequences, in source order. -/
def reqPatterns : List ((List Char → List (List Char)) × List (List (List Char))) :=
  [(kwVariants [("requirements").data, ("requirement").data],
    [[("responsibilities").data], [("qualifications").data]]),
   (kwVariants [("qualifications").data, ("qualification").data],
    [[("responsibilities").data], [("requirements").data]]),
   (kwPhrase ("must").data ("have").data,
    [[("nice").data, ("to").data, ("have").data], [("preferred").data]])]

/-- The three responsibility patterns of `extract_responsibilities`. -/
def respPatterns : List ((List Char → List (List Char)) × List (List (List Char))) :=
  [(kwVariants [("responsibilities").data],
    [[("requirements").data], [("qualifications").data]]),
   (kwVariants [("duties").data],
    [[("requirements").data], [("qualifications").data]]),
   (kwPhrase ("you").data ("will").data,
    [[("requirements").data], [("qualifications").data]])]

/-- Amended formulation of claim C5: per pattern, the matched block is
split on the bullet class, items are stripped, and exactly the items of
trimmed length at most 10 are discarded (length greater than 10 kept);
per-pattern results are concatenated in order, not deduplicated. -/
def sectionItemsSpec (pats : List ((List Char → List (List Char)) × List (List (List Char))))
    (t : List Char) : List (List Char) :=
  pats.flatMap (fun pr =>
    match searchSection pr.1 pr.2 t with
    | some cap =>
      ((splitOnPred isBulletChar cap).map pyStrip).filter (fun i => decide (10 < i.length))
    | none => [])

/-- Formulated from the words of claim C5 as stated: exactly the
fragments of trimmed length shorter than 10 are discarded, so trimmed
length 10 or more is kept. -/
def sectionItemsClaimC5 (pats : List ((List Char → List (List Char)) × List (List (List Char))))
    (t : List Char) : List (List Char) :=
  pats.flatMap (fun pr =>
    match searchSection pr.1 pr.2 t with
    | some cap =>
      ((splitOnPred isBulletChar cap).map pyStrip).filter (fun i => decide (10 ≤ i.length))
    | none => [])

/-- The job text of the full-overlap scenario of claim C3. -/
def jobTextC3 : List Char :=
  ("Required: Python, Docker, and strong leadership skills, Python, Python").data

/-- The filtered token list feeding the keyword counter. -/
def filteredWords (t : List Char) : List (List Char) :=
  (simple_tokenize (preprocess_text t)).filter
    (fun w0 => !stop_words.contains w0 && decide (2 < w0.length))

/-- Holds when a keyword literal starts with a word character; all six
section keywords do. -/
def headIsWord : List Char → Bool
  | [] => false
  | c :: _ => isWordChar c

theorem forall_dropWhile_iff (p : Char → Bool) (l : List Char) :
    (∀ x ∈ l.dropWhile p, p x = true) ↔ ∀ x ∈ l, p x = true := by
  constructor
  · intro h x hx
    rw [← List.takeWhile_append_dropWhile p l] at hx
    rcases List.mem_append.mp hx with h1 | h2
    · exact List.mem_takeWhile_imp h1
    · exact h x h2
  · intro h x hx
    refine h x ?_
    rw [← List.takeWhile_append_dropWhile p l]
    exact List.mem_append.mpr (Or.inr hx)

theorem pyStrip_eq_nil_iff (l : List Char) : pyStrip l = [] ↔ l.all pyIsSpace = true := by
  unfold pyStrip
  rw [List.reverse_eq_nil_iff, List.dropWhile_eq_nil_iff]
  simp only [List.mem_reverse]
  rw [forall_dropWhile_iff, List.all_eq_true]

theorem guard_iff_allspace (t : List Char) :
    (t.isEmpty || (pyStrip t).isEmpty) = true ↔ t.all pyIsSpace = true := by
  rw [Bool.or_eq_true, List.isEmpty_iff, List.isEmpty_iff, pyStrip_eq_nil_iff]
  constructor
  · rintro (rfl | h)
    · rfl
    · exact h
  · intro h
    exact Or.inr h

/-- Claim C2: `analyze_job_description` raises the ValueError exactly when
the input is empty or whitespace-only, and on every other input returns a
complete analysis bundle instead of raising. -/
theorem claim_C2 (t : List Char) :
    (analyze_job_description t = Except.error valueErrorMsg ↔ t.all pyIsSpace = true) ∧
    (t.all pyIsSpace = false → ∃ a, analyze_job_description t = Except.ok a) := by
  by_cases hb : (t.isEmpty || (pyStrip t).isEmpty) = true
  · have hall := (guard_iff_allspace t).mp hb
    refine ⟨⟨fun _ => hall, fun _ => ?_⟩, fun hf => ?_⟩
    · unfold analyze_job_description
      rw [hb]
      rfl
    · rw [hall] at hf
      cases hf
  · have hbf : (t.isEmpty || (pyStrip t).isEmpty) = false := by
      exact Bool.not_eq_true _ ▸ Bool.eq_false_iff.mpr hb
    refine ⟨⟨fun he => ?_, fun hall => ?_⟩, fun _ => ?_⟩
    · exfalso
      unfold analyze_job_description at he
      rw [hbf] at he
      simp at he
    · exact absurd ((guard_iff_allspace t).mpr hall) hb
    · cases hres : analyze_job_description t with
      | ok a => exact ⟨a, rfl⟩
      | error e =>
        exfalso
        unfold analyze_job_description at hres
        rw [hbf] at hres
        simp at hres

/-- Witness for claim C2 at the concrete inputs "hi" (analysis returned)
and "  " (error raised). -/
theorem claim_C2_witness :
    (∃ a, analyze_job_description (("hi").data) = Except.ok a) ∧
    analyze_job_description (("  ").data) = Except.error valueErrorMsg :=
  ⟨(claim_C2 (("hi").data)).2 (by decide), (claim_C2 (("  ").data)).1.mpr (by decide)⟩

/-- Claim C7: `calculate_match_score` returns exactly 0 when the
candidate list is empty, and when the candidate list is non-empty but the
analysis's technical and soft skill lists are both empty; it is a total
function, so it never fails. -/
theorem claim_C7 :
    (∀ a : JobAnalysis, calculate_match_score [] a = 0) ∧
    (∀ (ps : List (List Char)) (a : JobAnalysis), ps ≠ [] →
      a.skills.technical = [] → a.skills.soft = [] → calculate_match_score ps a = 0) := by
  constructor
  · intro a
    rfl
  · intro ps a _ ht hs
    unfold calculate_match_score
    rw [ht, hs]
    simp

/-- Witness for claim C7 at a concrete non-empty candidate list and an
analysis with empty skill lists. -/
theorem claim_C7_witness :
    calculate_match_score [] emptyJA = 0 ∧ calculate_match_score [("x").data] emptyJA = 0 :=
  ⟨claim_C7.1 emptyJA, claim_C7.2 [("x").data] emptyJA (by decide) rfl rfl⟩

/-- Claim C9: in the state-threading model of the call, the score comes
out as the pure function value and both arguments come back unchanged:
the analysis bundle (priority skills included) is not mutated by scoring. -/
theorem claim_C9 (ps : List (List Char)) (a : JobAnalysis) :
    calculate_match_score_st ps a = (calculate_match_score ps a, ps, a) := by
  unfold calculate_match_score_st calculate_match_score
  split
  · rfl
  · simp only []
    split
    · rfl
    · rfl

theorem roundHalfEven_bounds (q : ℚ) (n : ℤ) (h0 : 0 ≤ q) (h1 : q ≤ (n : ℚ)) :
    0 ≤ roundHalfEven q ∧ roundHalfEven q ≤ n := by
  have hf0 : 0 ≤ ⌊q⌋ := Int.le_floor.mpr (by exact_mod_cast h0)
  have hfq : (⌊q⌋ : ℚ) ≤ q := Int.floor_le q
  have hfn : ⌊q⌋ ≤ n := by
    have h : (⌊q⌋ : ℚ) ≤ (n : ℚ) := le_trans hfq h1
    exact_mod_cast h
  unfold roundHalfEven
  split
  · exact ⟨hf0, hfn⟩
  · have hlt : (1 : ℚ)/2 ≤ q - ⌊q⌋ := by linarith [not_lt.mp (by assumption)]
    have hfn' : ⌊q⌋ + 1 ≤ n := by
      have h2 : (⌊q⌋ : ℚ) + 1/2 ≤ q := by linarith
      have h3 : (⌊q⌋ : ℚ) < (n : ℚ) := by linarith
      have h4 : ⌊q⌋ < n := by exact_mod_cast h3
      omega
    split
    · exact ⟨by omega, hfn'⟩
    · split
      · exact ⟨hf0, hfn⟩
      · exact ⟨by omega, hfn'⟩

theorem pyRound1_bounds (q : ℚ) (h0 : 0 ≤ q) (h1 : q ≤ 100) :
    0 ≤ pyRound1 q ∧ pyRound1 q ≤ 100 := by
  have h := roundHalfEven_bounds (q * 10) 1000 (by positivity) (by push_cast; linarith)
  have e0 : (0 : ℚ) ≤ ((roundHalfEven (q * 10) : ℤ) : ℚ) := by exact_mod_cast h.1
  have e1 : ((roundHalfEven (q * 10) : ℤ) : ℚ) ≤ 1000 := by exact_mod_cast h.2
  unfold pyRound1
  constructor
  · positivity
  · rw [div_le_iff₀ (by norm_num : (0:ℚ) < 10)]
    linarith

/-- Claim C6: the match score lies between 0 and 100 inclusive for every
candidate skill list and every analysis bundle. -/
theorem claim_C6 (ps : List (List Char)) (a : JobAnalysis) :
    0 ≤ calculate_match_score ps a ∧ calculate_match_score ps a ≤ 100 := by
  unfold calculate_match_score
  split
  · norm_num
  · simp only []
    split
    · norm_num
    · set m : ℚ := (((ps.map (fun sk => pyStrip (sk.map pyLowerChar))).filter
        (fun sk => (((a.skills.technical ++ a.skills.soft).map
          (fun sk => sk.map pyLowerChar))).contains sk)).dedup.length : ℚ) with hm
      set L : ℚ := ((((a.skills.technical ++ a.skills.soft).map
        (fun sk => sk.map pyLowerChar))).length : ℚ) with hL
      set pw := (a.priority_skills.foldl (fun acc p =>
        if (ps.map (fun sk => pyStrip (sk.map pyLowerChar))).contains (p.skill.map pyLowerChar) then
          acc + (if p.in_requirements then 2 else 1)
        else acc) (0 : Nat)) with hpw
      have hb : (0 : ℚ) ≤ m / L + (pw : ℚ) * (1/10) := by
        have h1 : (0 : ℚ) ≤ m / L := by positivity
        have h2 : (0 : ℚ) ≤ (pw : ℚ) := by positivity
        linarith
      have hmin0 : (0 : ℚ) ≤ min 1 (m / L + (pw : ℚ) * (1/10)) :=
        le_min (by norm_num) hb
      have hmin1 : min 1 (m / L + (pw : ℚ) * (1/10)) ≤ 1 := min_le_left _ _
      exact pyRound1_bounds _ (by linarith) (by linarith)

theorem contains_iff_mem (l : List Char) (a : Char) : l.contains a = true ↔ a ∈ l :=
  List.elem_iff

theorem containsL_iff_mem (l : List (List Char)) (a : List Char) : l.contains a = true ↔ a ∈ l :=
  List.elem_iff

theorem dedup_filter (p : List Char → Bool) (l : List (List Char)) :
    (l.filter p).dedup = l.dedup.filter p := by
  induction l with
  | nil => rfl
  | cons a l ih =>
    by_cases hp : p a = true
    · rw [List.filter_cons_of_pos hp]
      by_cases ha : a ∈ l
      · have haf : a ∈ l.filter p := List.mem_filter.mpr ⟨ha, hp⟩
        rw [List.dedup_cons_of_mem haf, List.dedup_cons_of_mem ha, ih]
      · have haf : a ∉ l.filter p := fun hc => ha (List.mem_filter.mp hc).1
        rw [List.dedup_cons_of_not_mem haf, List.dedup_cons_of_not_mem ha,
          List.filter_cons_of_pos hp, ih]
    · have hp' : p a = false := Bool.eq_false_iff.mpr hp
      rw [List.filter_cons_of_neg (by simp [hp'])]
      by_cases ha : a ∈ l
      · rw [List.dedup_cons_of_mem ha, ih]
      · rw [List.dedup_cons_of_not_mem ha, List.filter_cons_of_neg (by simp [hp']), ih]

theorem foldl_weight_eq (L : List PrioritySkill) (f : PrioritySkill → Bool) : ∀ n : Nat,
    L.foldl (fun acc p => if f p then acc + (if p.in_requirements then 2 else 1) else acc) n
      = n + ((L.filter f).map (fun p => if p.in_requirements then 2 else 1)).sum := by
  induction L with
  | nil => intro n; simp
  | cons a L ih =>
    intro n
    by_cases hf : f a = true
    · rw [List.foldl_cons, List.filter_cons_of_pos hf]
      rw [if_pos hf, ih]
      simp
      omega
    · have hf' : f a = false := Bool.eq_false_iff.mpr hf
      rw [List.foldl_cons, List.filter_cons_of_neg (by simp [hf'])]
      rw [if_neg (by simp [hf']), ih]

/-- Counterexample to claim C1 as stated: on an analysis whose technical
list holds "python" twice (candidate list and job skill list both
non-empty, so inside the claim's domain), the code returns 50 while the
claim's set-cardinality formula yields 100. -/
theorem match_score_formula (ps : List (List Char)) (a : JobAnalysis)
    (h1 : ps.isEmpty = false) (h2 : (jobSkillsLower a).isEmpty = false) :
    calculate_match_score ps a =
      pyRound1 (min 1
        ((((candLower ps).filter (fun sk => (jobSkillsLower a).contains sk)).dedup.length : ℚ) /
            ((jobSkillsLower a).length : ℚ) +
          ((a.priority_skills.foldl (fun (acc : ℕ) p =>
            if (candLower ps).contains (p.skill.map pyLowerChar) then
              acc + (if p.in_requirements then 2 else 1) else acc) 0 : ℕ) : ℚ) * (1/10)) * 100) := by
  unfold calculate_match_score candLower jobSkillsLower
  unfold jobSkillsLower at h2
  rw [h1]
  simp only [Bool.false_eq_true, if_false]
  rw [h2]
  simp only [Bool.false_eq_true, if_false]

theorem score_dupJA_eq_50 : calculate_match_score [("python").data] dupJA = 50 := by
  rw [match_score_formula _ _ (by decide) (by decide)]
  have e1 : ((candLower [("python").data]).filter
      (fun sk => (jobSkillsLower dupJA).contains sk)).dedup.length = 1 := by decide
  have e2 : (jobSkillsLower dupJA).length = 2 := by decide
  have e3 : (dupJA.priority_skills.foldl (fun (acc : ℕ) p =>
      if (candLower [("python").data]).contains (p.skill.map pyLowerChar) then
        acc + (if p.in_requirements then 2 else 1) else acc) 0) = 0 := by decide
  rw [e1, e2, e3]
  norm_num [pyRound1, roundHalfEven]

/-- Counterexample to claim C1 as stated: on an analysis whose technical
list holds "python" twice (candidate list and job skill list both
non-empty, so inside the claim's domain), the code returns 50 while the
claim's set-cardinality formula yields 100. -/
theorem claim_C1_counterexample :
    calculate_match_score [("python").data] dupJA = 50 ∧
    c1ClaimScore [("python").data] dupJA = 100 ∧
    calculate_match_score [("python").data] dupJA ≠ c1ClaimScore [("python").data] dupJA ∧
    ([("python").data] : List (List Char)) ≠ [] ∧
    dupJA.skills.technical ++ dupJA.skills.soft ≠ [] := by
  have hclaim : c1ClaimScore [("python").data] dupJA = 100 := by
    unfold c1ClaimScore
    simp only []
    have e1 : (((candLower [("python").data]).dedup).filter
        (fun sk => ((jobSkillsLower dupJA).dedup).contains sk)).length = 1 := by decide
    have e2 : ((jobSkillsLower dupJA).dedup).length = 1 := by decide
    have e3 : c1PriorityWeight ((candLower [("python").data]).dedup) dupJA = 0 := by decide
    rw [e1, e2, e3]
    norm_num [pyRound1, roundHalfEven]
  refine ⟨score_dupJA_eq_50, hclaim, ?_, by decide, by decide⟩
  rw [score_dupJA_eq_50, hclaim]
  norm_num

theorem contains_dedup_eq (l : List (List Char)) (x : List Char) :
    (l.dedup).contains x = l.contains x := by
  by_cases hx : x ∈ l
  · rw [(containsL_iff_mem _ _).mpr hx, (containsL_iff_mem _ _).mpr (List.mem_dedup.mpr hx)]
  · have b1 : l.contains x = false :=
      Bool.eq_false_iff.mpr (fun hc => hx ((containsL_iff_mem _ _).mp hc))
    have b2 : (l.dedup).contains x = false :=
      Bool.eq_false_iff.mpr (fun hc => hx (List.mem_dedup.mp ((containsL_iff_mem _ _).mp hc)))
    rw [b1, b2]

/-- Claim C1 (amended): for every non-empty candidate list and every
analysis whose combined skill list is non-empty, the score equals
round(min(1, base + priorityWeight * 0.1) * 100, 1), where priorityWeight
is as the claim states and base divides the intersection cardinality by
the LENGTH of the combined lowercased job-skill list (duplicates
counted), which coincides with the set cardinality exactly when that
list has no duplicates. -/
theorem claim_C1_amended (ps : List (List Char)) (a : JobAnalysis)
    (h1 : ps ≠ []) (h2 : a.skills.technical ++ a.skills.soft ≠ []) :
    calculate_match_score ps a = c1AmendedScore ps a := by
  have hps : ps.isEmpty = false := List.isEmpty_eq_false.mpr h1
  have hjob : (jobSkillsLower a).isEmpty = false := by
    rw [List.isEmpty_eq_false]
    unfold jobSkillsLower
    rw [Ne, List.map_eq_nil_iff]
    exact h2
  rw [match_score_formula ps a hps hjob]
  unfold c1AmendedScore
  simp only []
  have hm : ((candLower ps).filter (fun sk => (jobSkillsLower a).contains sk)).dedup
      = ((candLower ps).dedup).filter (fun sk => ((jobSkillsLower a).dedup).contains sk) := by
    rw [dedup_filter]
    exact List.filter_congr (fun x _ => (contains_dedup_eq _ _).symm)
  have hw : a.priority_skills.filter
        (fun p => (candLower ps).contains (p.skill.map pyLowerChar))
      = a.priority_skills.filter
        (fun p => ((candLower ps).dedup).contains (p.skill.map pyLowerChar)) :=
    List.filter_congr (fun p _ => (contains_dedup_eq _ _).symm)
  rw [foldl_weight_eq, hw]
  unfold c1PriorityWeight
  rw [hm, Nat.zero_add]

/-- Witness for the amended claim C1, discharging both hypotheses at a
concrete candidate list and analysis. -/
theorem claim_C1_witness :
    calculate_match_score [("python").data] dupJA = c1AmendedScore [("python").data] dupJA :=
  claim_C1_amended [("python").data] dupJA (by decide) (by decide)

theorem findLevelLoop_eq_find (p : List Char) : ∀ L : List (List Char × List (List Char)),
    findLevelLoop p L =
      (L.find? (fun lv => lv.2.any (fun ind => isSubOf ind p))).map (fun lv => lv.1) := by
  intro L
  induction L with
  | nil => rfl
  | cons lv L ih =>
    by_cases h : lv.2.any (fun ind => isSubOf ind p) = true
    · unfold findLevelLoop
      rw [if_pos h, @List.find?_cons_of_pos _ (fun lv => lv.2.any (fun ind => isSubOf ind p)) lv L h]
      rfl
    · unfold findLevelLoop
      rw [if_neg h, @List.find?_cons_of_neg _ (fun lv => lv.2.any (fun ind => isSubOf ind p)) lv L h, ih]

/-- Claim C4: the experience level is the first level in table
declaration order (entry, mid, senior, executive) one of whose indicator
phrases occurs in the preprocessed text, decided before the numeric
fallback is consulted; with no indicator, an "N years experience" match
maps N at most 2 to entry, N at most 5 to mid and larger N to senior,
and with neither the level is unknown.  In particular the text
"junior dev with 5+ years experience", containing both "junior" and
"5+ years", yields entry. -/
theorem claim_C4 :
    (∀ t : List Char, extract_experience_level t =
      (match firstIndicatorLevel (preprocess_text t) with
       | some lvl => lvl
       | none =>
         match searchYears (preprocess_text t) with
         | some n =>
           if n ≤ 2 then ("entry").data else if n ≤ 5 then ("mid").data else ("senior").data
         | none => ("unknown").data)) ∧
    extract_experience_level (("junior dev with 5+ years experience").data) = ("entry").data := by
  constructor
  · intro t
    unfold extract_experience_level expCore firstIndicatorLevel
    rw [findLevelLoop_eq_find]
  · decide

theorem processBlock_eq (b : List Char) :
    processBlock b =
      ((splitOnPred isBulletChar b).map pyStrip).filter (fun i => decide (10 < i.length)) := by
  unfold processBlock
  apply List.filter_congr
  intro i _
  by_cases h : 10 < i.length
  · have hne : i.isEmpty = false := by
      rw [List.isEmpty_eq_false]
      intro e
      rw [e] at h
      simp at h
    simp [hne, h]
  · simp [h]

theorem runPattern_eq (kwm : List Char → List (List Char)) (la : List (List (List Char)))
    (t : List Char) :
    runPattern kwm la t =
      (match searchSection kwm la t with
       | some cap =>
         ((splitOnPred isBulletChar cap).map pyStrip).filter (fun i => decide (10 < i.length))
       | none => []) := by
  unfold runPattern
  cases searchSection kwm la t with
  | some cap => exact processBlock_eq cap
  | none => rfl

/-- Counterexample to claim C5 as stated: the block captured from
"requirements: abcdefghij" trims to the single fragment "abcdefghij" of
length exactly 10, which the claim's shorter-than-10 filter keeps but
the code discards (`len(item) > 10`). -/
theorem claim_C5_counterexample :
    extract_requirements (("requirements: abcdefghij").data) = [] ∧
    sectionItemsClaimC5 reqPatterns (("requirements: abcdefghij").data) =
      [(("abcdefghij").data)] ∧
    (("abcdefghij").data).length = 10 :=
  ⟨by decide, by decide, by decide⟩

/-- Claim C5 (amended): requirement and responsibility extraction split
each captured block on the bullet markers and newlines, trim each
fragment, discard exactly the fragments of trimmed length at most 10
(rather than shorter than 10), and concatenate the per-pattern results
in pattern order without deduplication — on the text
"requirements:\nqualifications:\nwonderful fragment here" the same
fragment is produced twice by two different patterns. -/
theorem claim_C5_amended :
    (∀ t, extract_requirements t = sectionItemsSpec reqPatterns t) ∧
    (∀ t, extract_responsibilities t = sectionItemsSpec respPatterns t) ∧
    extract_requirements (("requirements:\nqualifications:\nwonderful fragment here").data) =
      [("qualifications:").data, ("wonderful fragment here").data,
        ("wonderful fragment here").data] := by
  refine ⟨fun t => ?_, fun t => ?_, by decide⟩
  · unfold extract_requirements sectionItemsSpec reqPatterns
    rw [List.flatMap_cons, List.flatMap_cons, List.flatMap_cons, List.flatMap_nil,
      List.append_nil, ← runPattern_eq, ← runPattern_eq, ← runPattern_eq, List.append_assoc]
  · unfold extract_responsibilities sectionItemsSpec respPatterns
    rw [List.flatMap_cons, List.flatMap_cons, List.flatMap_cons, List.flatMap_nil,
      List.append_nil, ← runPattern_eq, ← runPattern_eq, ← runPattern_eq, List.append_assoc]

/-- Counterexample to claim C3 as stated: on this exact text the three
requirement patterns match nothing ("Required" does not contain the
literal "requirement"), so the derived priority list is exactly one
entry, python with in_requirements FALSE, and leadership is not flagged
as a priority skill at all. -/
theorem claim_C3_counterexample :
    ((analyze_job_description jobTextC3).toOption.map (fun a => a.priority_skills)) =
      some [{ skill := ("python").data, frequency := 3, in_requirements := false }] := by
  decide

/-- Claim C3 (amended): for the full-overlap text, python and docker are
extracted as technical skills and leadership as a soft skill; the
requirement extraction matches nothing, so the only priority skill is
python with frequency 3 and in_requirements false (docker and
leadership are not flagged); the match score against
["python", "docker", "leadership"] is still exactly 100. -/
theorem claim_C3_amended :
    ∃ a, analyze_job_description jobTextC3 = Except.ok a ∧
      a.skills.technical = [("python").data, ("docker").data] ∧
      a.skills.soft = [("leadership").data] ∧
      a.requirements = [] ∧
      a.priority_skills =
        [{ skill := ("python").data, frequency := 3, in_requirements := false }] ∧
      calculate_match_score [("python").data, ("docker").data, ("leadership").data] a = 100 := by
  have h1 : ((analyze_job_description jobTextC3).toOption.map (fun a => a.skills.technical)) =
      some [("python").data, ("docker").data] := by decide
  have h2 : ((analyze_job_description jobTextC3).toOption.map (fun a => a.skills.soft)) =
      some [("leadership").data] := by decide
  have h3 : ((analyze_job_description jobTextC3).toOption.map (fun a => a.requirements)) =
      some [] := by decide
  have h4 : ((analyze_job_description jobTextC3).toOption.map (fun a => a.priority_skills)) =
      some [{ skill := ("python").data, frequency := 3, in_requirements := false }] := by decide
  cases hres : analyze_job_description jobTextC3 with
  | error e =>
    rw [hres] at h1
    simp [Except.toOption] at h1
  | ok a =>
    rw [hres] at h1 h2 h3 h4
    simp only [Except.toOption, Option.map_some] at h1 h2 h3 h4
    have ht := Option.some_injective _ h1
    have hs := Option.some_injective _ h2
    have hr := Option.some_injective _ h3
    have hp := Option.some_injective _ h4
    simp only [] at ht hs hr hp
    refine ⟨a, rfl, ht, hs, hr, hp, ?_⟩
    have hjl : jobSkillsLower a =
        [("python").data, ("docker").data, ("leadership").data] := by
      unfold jobSkillsLower
      rw [ht, hs]
      decide
    have hcand : candLower [("python").data, ("docker").data, ("leadership").data] =
        [("python").data, ("docker").data, ("leadership").data] := by decide
    rw [match_score_formula _ _ (by decide) (by rw [hjl]; decide)]
    rw [hjl, hcand, hp]
    have e1 : (([("python").data, ("docker").data, ("leadership").data].filter
        (fun sk => [("python").data, ("docker").data, ("leadership").data].contains sk)).dedup.length) = 3 := by
      decide
    have e2 : ([("python").data, ("docker").data, ("leadership").data] : List (List Char)).length = 3 := by
      decide
    have e3 : ([{ skill := ("python").data, frequency := 3, in_requirements := false }] :
        List PrioritySkill).foldl (fun (acc : ℕ) p =>
          if [("python").data, ("docker").data, ("leadership").data].contains
              (p.skill.map pyLowerChar) then
            acc + (if p.in_requirements then 2 else 1) else acc) 0 = 1 := by decide
    rw [e1, e2, e3]
    norm_num [pyRound1, roundHalfEven]

theorem mem_insertDescBy {α : Type} (ge : α → α → Bool) (x y : α) : ∀ l : List α,
    y ∈ insertDescBy ge x l ↔ y = x ∨ y ∈ l := by
  intro l
  induction l with
  | nil => simp [insertDescBy]
  | cons a l ih =>
    unfold insertDescBy
    by_cases h : ge x a = true
    · rw [if_pos h]
      simp only [List.mem_cons]
    · rw [if_neg h]
      simp only [List.mem_cons, ih]
      tauto

theorem mem_pySortDescBy {α : Type} (ge : α → α → Bool) (x : α) : ∀ l : List α,
    x ∈ pySortDescBy ge l ↔ x ∈ l := by
  intro l
  induction l with
  | nil => simp [pySortDescBy]
  | cons a l ih =>
    unfold pySortDescBy
    rw [List.foldr_cons]
    unfold pySortDescBy at ih
    rw [mem_insertDescBy, ih, List.mem_cons]

theorem bump_keys (Q : List Char → Prop) (w0 : List Char) (hw : Q w0) :
    ∀ acc, (∀ e ∈ acc, Q e.1) → ∀ e ∈ bump w0 acc, Q e.1 := by
  intro acc
  induction acc with
  | nil =>
    intro _ e he
    unfold bump at he
    rcases List.mem_cons.mp he with rfl | hf
    · exact hw
    · cases hf
  | cons a t ih =>
    intro hacc e he
    unfold bump at he
    by_cases h : a.1 = w0
    · rw [if_pos h] at he
      rcases List.mem_cons.mp he with rfl | ht
      · exact hacc a (List.mem_cons_self _ _) 
      · exact hacc e (List.mem_cons_of_mem _ ht)
    · rw [if_neg h] at he
      rcases List.mem_cons.mp he with rfl | ht
      · exact hacc e (List.mem_cons_self _ _)
      · exact ih (fun v hv => hacc v (List.mem_cons_of_mem _ hv)) e ht

theorem countsFold_keys (Q : List Char → Prop) : ∀ (ws : List (List Char))
    (acc : List (List Char × Nat)), (∀ e ∈ acc, Q e.1) → (∀ w0 ∈ ws, Q w0) →
    ∀ e ∈ ws.foldl (fun a w0 => bump w0 a) acc, Q e.1 := by
  intro ws
  induction ws with
  | nil => intro acc hacc _ e he; exact hacc e he
  | cons w0 ws ih =>
    intro acc hacc hws e he
    rw [List.foldl_cons] at he
    refine ih (bump w0 acc) ?_ (fun v hv => hws v (List.mem_cons_of_mem _ hv)) e he
    exact bump_keys Q w0 (hws w0 (List.mem_cons_self _ _)) acc hacc

theorem countsList_keys (ws : List (List Char)) (e : List Char × Nat)
    (he : e ∈ countsList ws) : e.1 ∈ ws := by
  refine countsFold_keys (fun x => x ∈ ws) ws [] ?_ (fun w0 hw => hw) e he
  intro v hv
  cases hv

theorem pairwise_insertDescBy (x : List Char × Nat) : ∀ l : List (List Char × Nat),
    l.Pairwise (fun u v => v.2 ≤ u.2) →
    (insertDescBy countGe x l).Pairwise (fun u v => v.2 ≤ u.2) := by
  intro l
  induction l with
  | nil => intro _; simp [insertDescBy]
  | cons a l ih =>
    intro hl
    rcases List.pairwise_cons.mp hl with ⟨hhead, htail⟩
    unfold insertDescBy
    by_cases h : countGe x a = true
    · rw [if_pos h]
      have hxa : a.2 ≤ x.2 := by
        unfold countGe at h
        exact of_decide_eq_true h
      refine List.Pairwise.cons ?_ hl
      intro v hv
      rcases List.mem_cons.mp hv with rfl | hvl
      · exact hxa
      · exact le_trans (hhead v hvl) hxa
    · rw [if_neg h]
      have hax : x.2 ≤ a.2 := by
        unfold countGe at h
        have := of_decide_eq_false (Bool.eq_false_iff.mpr h)
        omega
      refine List.Pairwise.cons ?_ (ih htail)
      intro v hv
      rcases (mem_insertDescBy countGe x v l).mp hv with rfl | hvl
      · exact hax
      · exact hhead v hvl

theorem pairwise_pySortDescBy : ∀ l : List (List Char × Nat),
    (pySortDescBy countGe l).Pairwise (fun u v => v.2 ≤ u.2) := by
  intro l
  induction l with
  | nil => simp [pySortDescBy]
  | cons a l ih =>
    unfold pySortDescBy
    rw [List.foldr_cons]
    exact pairwise_insertDescBy a (pySortDescBy countGe l) ih

theorem filter_insertDescBy (x : List Char × Nat) (c : Nat) : ∀ l : List (List Char × Nat),
    l.Pairwise (fun u v => v.2 ≤ u.2) →
    (insertDescBy countGe x l).filter (fun kw => kw.2 == c) =
      (if x.2 == c then x :: l.filter (fun kw => kw.2 == c)
       else l.filter (fun kw => kw.2 == c)) := by
  intro l
  induction l with
  | nil =>
    intro _
    unfold insertDescBy
    rw [List.filter_cons]
  | cons a l ih =>
    intro hl
    rcases List.pairwise_cons.mp hl with ⟨hhead, htail⟩
    unfold insertDescBy
    by_cases h : countGe x a = true
    · rw [if_pos h, List.filter_cons]
    · rw [if_neg h]
      have hax : x.2 < a.2 := by
        unfold countGe at h
        have hn := of_decide_eq_false (Bool.eq_false_iff.mpr h)
        omega
      rw [List.filter_cons, ih htail, List.filter_cons]
      by_cases hxc : x.2 = c
      · have hbx : (x.2 == c) = true := by simp [hxc]
        have hac : (a.2 == c) = false := by
          simp only [beq_eq_false_iff_ne, Ne]
          omega
        rw [hbx, hac]
        simp
      · have hbx : (x.2 == c) = false := by simp [hxc]
        rw [hbx]
        simp

theorem filter_pySortDescBy (c : Nat) : ∀ l : List (List Char × Nat),
    (pySortDescBy countGe l).filter (fun kw => kw.2 == c) =
      l.filter (fun kw => kw.2 == c) := by
  intro l
  induction l with
  | nil => rfl
  | cons a l ih =>
    unfold pySortDescBy
    rw [List.foldr_cons]
    have hstep := filter_insertDescBy a c (pySortDescBy countGe l) (pairwise_pySortDescBy l)
    unfold pySortDescBy at hstep
    rw [hstep, List.filter_cons]
    unfold pySortDescBy at ih
    rw [ih]

/-- Claim C8: every keyword returned survives the stop-word and length
filters (no stop-word, no token of length at most 2); the list is the
first 20 entries of the frequency table sorted by descending count; the
sort is genuinely descending in count; and it is stable, so entries of
equal count keep their first-encountered order from the counter. -/
theorem claim_C8 (t : List Char) :
    (∀ kw ∈ extract_keywords t 20, kw.1 ∉ stop_words ∧ 2 < kw.1.length) ∧
    (extract_keywords t 20).Pairwise (fun u v => v.2 ≤ u.2) ∧
    extract_keywords t 20 = (pySortDescBy countGe (countsList (filteredWords t))).take 20 ∧
    (∀ c : Nat, (pySortDescBy countGe (countsList (filteredWords t))).filter
        (fun kw => kw.2 == c) = (countsList (filteredWords t)).filter (fun kw => kw.2 == c)) := by
  have heq : extract_keywords t 20 =
      (pySortDescBy countGe (countsList (filteredWords t))).take 20 := by
    unfold extract_keywords keywordsCore filteredWords
    rfl
  refine ⟨?_, ?_, heq, fun c => filter_pySortDescBy c _⟩
  · intro kw hkw
    rw [heq] at hkw
    have hsort : kw ∈ pySortDescBy countGe (countsList (filteredWords t)) :=
      List.take_subset _ _ hkw
    have hcnt : kw ∈ countsList (filteredWords t) :=
      (mem_pySortDescBy countGe kw _).mp hsort
    have hword : kw.1 ∈ filteredWords t := countsList_keys _ _ hcnt
    unfold filteredWords at hword
    have hp := (List.mem_filter.mp hword).2
    rw [Bool.and_eq_true] at hp
    rcases hp with ⟨hstop, hlen⟩
    constructor
    · intro hmem
      rw [Bool.not_eq_eq_eq_not, Bool.not_true] at hstop
      exact absurd ((containsL_iff_mem _ _).mpr hmem) (by rw [hstop]; exact Bool.false_ne_true)
    · exact of_decide_eq_true hlen
  · rw [heq]
    exact List.Pairwise.sublist (List.take_sublist _ _) (pairwise_pySortDescBy _)

/-- Witness for claim C8, instantiating the membership conjunct at a
concrete text and keyword. -/
theorem claim_C8_witness :
    (("python").data ∉ stop_words ∧ 2 < (("python").data).length) ∧
    (extract_keywords (("python and python").data) 20).Pairwise (fun u v => v.2 ≤ u.2) := by
  have h := claim_C8 (("python and python").data)
  refine ⟨?_, h.2.1⟩
  have hmem : ((("python").data, 2) : List Char × Nat) ∈
      extract_keywords (("python and python").data) 20 := by decide
  simpa using h.1 (("python").data, 2) hmem

theorem retained_false_parts (c : Char) (h : isRetainedChar c = false) :
    isWordChar c = false ∧ pyIsSpace c = false ∧ pyLowerChar c = c := by
  unfold isRetainedChar at h
  have h1 : isWordChar c = false := by
    cases hw : isWordChar c
    · rfl
    · rw [hw] at h
      simp at h
  have h2 : pyIsSpace c = false := by
    cases hw : pyIsSpace c
    · rfl
    · rw [hw] at h
      simp at h
  refine ⟨h1, h2, ?_⟩
  have h3 : (65 ≤ c.toNat && c.toNat ≤ 90 : Bool) = false := by
    cases hb : (65 ≤ c.toNat && c.toNat ≤ 90 : Bool)
    · rfl
    · unfold isWordChar at h1
      rw [hb] at h1
      simp at h1
  unfold pyLowerChar
  rw [h3]
  simp

theorem pyLowerChar_id_of_not_word (c : Char) (h : isWordChar c = false) : pyLowerChar c = c := by
  have h3 : (65 ≤ c.toNat && c.toNat ≤ 90 : Bool) = false := by
    cases hb : (65 ≤ c.toNat && c.toNat ≤ 90 : Bool)
    · rfl
    · unfold isWordChar at h
      rw [hb] at h
      simp at h
  unfold pyLowerChar
  rw [h3]
  simp

theorem map_id_of_forall (f : Char → Char) : ∀ t : List Char,
    (∀ c ∈ t, f c = c) → t.map f = t := by
  intro t
  induction t with
  | nil => intro _; rfl
  | cons c cs ih =>
    intro h
    rw [List.map_cons, h c (List.mem_cons_self _ _),
      ih (fun v hv => h v (List.mem_cons_of_mem _ hv))]

theorem collapseWS_id : ∀ t : List Char, (∀ c ∈ t, pyIsSpace c = false) → collapseWS t = t := by
  intro t
  induction t with
  | nil => intro _; rfl
  | cons c cs ih =>
    intro h
    cases cs with
    | nil =>
      unfold collapseWS
      rw [h c (List.mem_cons_self _ _)]
      rfl
    | cons d ds =>
      unfold collapseWS
      rw [h c (List.mem_cons_self _ _), h d (List.mem_cons_of_mem _ (List.mem_cons_self _ _))]
      simp only [Bool.false_and, Bool.false_eq_true, if_false]
      rw [ih (fun v hv => h v (List.mem_cons_of_mem _ hv))]

theorem removeSpecials_spaces : ∀ t : List Char, (∀ c ∈ t, isRetainedChar c = false) →
    removeSpecials t = List.replicate t.length ' ' := by
  intro t
  induction t with
  | nil => intro _; rfl
  | cons c cs ih =>
    intro h
    unfold removeSpecials
    rw [List.map_cons, h c (List.mem_cons_self _ _)]
    simp only [Bool.false_eq_true, if_false]
    unfold removeSpecials at ih
    rw [ih (fun v hv => h v (List.mem_cons_of_mem _ hv)), List.length_cons, List.replicate_succ]

theorem pyStrip_replicate (n : Nat) : pyStrip (List.replicate n ' ') = [] := by
  rw [pyStrip_eq_nil_iff, List.all_eq_true]
  intro c hc
  rw [(List.mem_replicate.mp hc).2]
  rfl

theorem dropWhile_id_of_all (p : Char → Bool) : ∀ t : List Char,
    (∀ c ∈ t, p c = false) → t.dropWhile p = t := by
  intro t h
  cases t with
  | nil => rfl
  | cons c cs =>
    refine List.dropWhile_cons_of_neg ?_
    rw [h c (List.mem_cons_self _ _)]
    exact Bool.false_ne_true

theorem pyStrip_id (t : List Char) (h : ∀ c ∈ t, pyIsSpace c = false) : pyStrip t = t := by
  unfold pyStrip
  rw [dropWhile_id_of_all pyIsSpace t h,
    dropWhile_id_of_all pyIsSpace t.reverse (fun c hc => h c (List.mem_reverse.mp hc)),
    List.reverse_reverse]

theorem preprocess_nil (t : List Char) (h : ∀ c ∈ t, isRetainedChar c = false) :
    preprocess_text t = [] := by
  have hws : ∀ c ∈ t, pyIsSpace c = false := fun c hc => (retained_false_parts c (h c hc)).2.1
  have hlow : ∀ c ∈ t, pyLowerChar c = c := fun c hc => (retained_false_parts c (h c hc)).2.2
  unfold preprocess_text
  rw [map_id_of_forall pyLowerChar t hlow, collapseWS_id t hws, removeSpecials_spaces t h]
  exact pyStrip_replicate _

theorem stripPrefixCI_none_of_letter (p : Char) (ps : List Char) (hp : isWordChar p = true) :
    ∀ s : List Char, (∀ c ∈ s, isWordChar c = false) → stripPrefixCI (p :: ps) s = none := by
  intro s hs
  cases s with
  | nil => rfl
  | cons c cs =>
    unfold stripPrefixCI
    rw [if_neg]
    intro he
    have hcw : isWordChar c = false := hs c (List.mem_cons_self _ _)
    rw [pyLowerChar_id_of_not_word c hcw] at he
    rw [he, hp] at hcw
    cases hcw

theorem kwVariants_nil (vs : List (List Char)) (hv : vs.all headIsWord = true)
    (s : List Char) (hs : ∀ c ∈ s, isWordChar c = false) : kwVariants vs s = [] := by
  unfold kwVariants
  rw [List.filterMap_eq_nil_iff]
  intro v hvm
  have hw := List.all_eq_true.mp hv v hvm
  cases v with
  | nil =>
    unfold headIsWord at hw
    cases hw
  | cons p ps =>
    unfold headIsWord at hw
    exact stripPrefixCI_none_of_letter p ps hw s hs

theorem kwPhrase_nil (a b : List Char) (ha : headIsWord a = true)
    (s : List Char) (hs : ∀ c ∈ s, isWordChar c = false) : kwPhrase a b s = [] := by
  cases a with
  | nil =>
    unfold headIsWord at ha
    cases ha
  | cons p ps =>
    unfold headIsWord at ha
    unfold kwPhrase
    rw [stripPrefixCI_none_of_letter p ps ha s hs]

theorem searchSection_none (kwm : List Char → List (List Char)) (la : List (List (List Char))) :
    ∀ t : List Char, (∀ c ∈ t, isWordChar c = false) →
    (∀ s : List Char, (∀ c ∈ s, isWordChar c = false) → kwm s = []) →
    searchSection kwm la t = none := by
  intro t
  induction t with
  | nil =>
    intro _ hk
    unfold searchSection tryMatchAt
    rw [hk [] (fun c hc => absurd hc (List.not_mem_nil c))]
    rfl
  | cons c cs ih =>
    intro ht hk
    have h1 : tryMatchAt kwm la (c :: cs) = none := by
      unfold tryMatchAt
      rw [hk (c :: cs) ht]
      rfl
    unfold searchSection
    rw [h1]
    exact ih (fun v hv => ht v (List.mem_cons_of_mem _ hv)) hk

theorem extract_requirements_nil (t : List Char) (ht : ∀ c ∈ t, isWordChar c = false) :
    extract_requirements t = [] := by
  unfold extract_requirements runPattern
  rw [searchSection_none _ _ t ht (fun s hs => kwVariants_nil _ (by decide) s hs),
    searchSection_none _ _ t ht (fun s hs => kwVariants_nil _ (by decide) s hs),
    searchSection_none _ _ t ht (fun s hs => kwPhrase_nil _ _ (by decide) s hs)]
  rfl

theorem extract_responsibilities_nil (t : List Char) (ht : ∀ c ∈ t, isWordChar c = false) :
    extract_responsibilities t = [] := by
  unfold extract_responsibilities runPattern
  rw [searchSection_none _ _ t ht (fun s hs => kwVariants_nil _ (by decide) s hs),
    searchSection_none _ _ t ht (fun s hs => kwVariants_nil _ (by decide) s hs),
    searchSection_none _ _ t ht (fun s hs => kwPhrase_nil _ _ (by decide) s hs)]
  rfl

/-- Claim C10: a non-empty input whose characters all lie outside the
retained class (word characters, whitespace, hyphen, plus, hash, dot) is
not rejected: the analysis comes back with empty skills, requirements,
responsibilities, keywords and priority skills and experience level
unknown, even though the preprocessed text is the empty string. -/
theorem claim_C10 (t : List Char) (hne : t ≠ [])
    (h : ∀ c ∈ t, isRetainedChar c = false) :
    analyze_job_description t = Except.ok
      { skills := { technical := [], soft := [], all_categories := [] }
        requirements := [], responsibilities := []
        experience_level := ("unknown").data
        keywords := [], priority_skills := [], matching_score := 0 } ∧
    preprocess_text t = [] := by
  have hword : ∀ c ∈ t, isWordChar c = false := fun c hc => (retained_false_parts c (h c hc)).1
  have hws : ∀ c ∈ t, pyIsSpace c = false := fun c hc => (retained_false_parts c (h c hc)).2.1
  have hpre : preprocess_text t = [] := preprocess_nil t h
  refine ⟨?_, hpre⟩
  have hguard : (t.isEmpty || (pyStrip t).isEmpty) = false := by
    rw [Bool.or_eq_false_iff, List.isEmpty_eq_false, List.isEmpty_eq_false, pyStrip_id t hws]
    exact ⟨hne, hne⟩
  unfold analyze_job_description
  rw [hguard]
  simp only [Bool.false_eq_true, if_false]
  have hskills : extract_skills t = { technical := [], soft := [], all_categories := [] } := by
    unfold extract_skills
    rw [hpre]
    decide
  have hreq : extract_requirements t = [] := extract_requirements_nil t hword
  have hresp : extract_responsibilities t = [] := extract_responsibilities_nil t hword
  have hexp : extract_experience_level t = ("unknown").data := by
    unfold extract_experience_level
    rw [hpre]
    decide
  have hkw : extract_keywords t 20 = [] := by
    unfold extract_keywords
    rw [hpre]
    decide
  rw [hskills, hreq, hresp, hexp, hkw]
  rfl

/-- Witness for claim C10 at the concrete input "!!!". -/
theorem claim_C10_witness :
    analyze_job_description (("!!!").data) = Except.ok
      { skills := { technical := [], soft := [], all_categories := [] }
        requirements := [], responsibilities := []
        experience_level := ("unknown").data
        keywords := [], priority_skills := [], matching_score := 0 } ∧
    preprocess_text (("!!!").data) = [] :=
  claim_C10 (("!!!").data) (by decide) (by decide)
